import Mathlib

/-!
Verification of the WOD_CODE deterministic layout engine and viewport
controller.  The definitions below are shallow embeddings of the JavaScript
source: the layout worker (`convertStringToNumber`, `mulberry32`,
`self.onmessage` in the worker file) and the viewport code in
`src/app/page.js` (`handleWheel`, the pinch branch of `handleTouchMove`,
`handleSearch`, `isCharacterVisible`).  32-bit wraparound arithmetic is
modelled over `Nat` with explicit `% 2^32`; viewport arithmetic (field
operations only) is modelled over `ℚ`; the spiral geometry (which uses
`sqrt`, `cos`, `sin`, `π`) is modelled over `ℝ`.
-/

/-- `convertStringToNumber` from the worker: a string seed is folded to an
integer by summing its character codes. -/
def convertStringToNumber (s : String) : ℕ :=
  (s.data.map Char.toNat).sum

/-- One output of the code's `mulberry32` generator, as a 32-bit integer,
given the accumulated state `s = seed + k*0x6D2B79F5` (JavaScript keeps the
accumulator un-reduced; every bitwise use coerces it to 32 bits, hence the
leading `% 2^32`).  Mirrors
`t = Math.imul(t ^ (t >>> 15), t | 1); t ^= t + Math.imul(t ^ (t >>> 7), t | 61);
return ((t ^ (t >>> 14)) >>> 0)`. -/
def mulberryMix (s : ℕ) : ℕ :=
  let t0 := s % 4294967296
  let t1 := ((t0 ^^^ (t0 >>> 15)) * (t0 ||| 1)) % 4294967296
  let t2 := t1 ^^^ ((t1 + (t1 ^^^ (t1 >>> 7)) * (t1 ||| 61)) % 4294967296)
  t2 ^^^ (t2 >>> 14)

/-- The integer numerator of the `k`-th (zero-based) draw of `mulberry32 seed`:
the generator first advances the state by `0x6D2B79F5` and then mixes, so the
`k`-th draw mixes `seed + (k+1)*0x6D2B79F5`. -/
def mulberryOut (seed k : ℕ) : ℕ :=
  mulberryMix (seed + (k + 1) * 0x6D2B79F5)

/-- The float actually returned by the generator: the 32-bit mix divided by
`2^32` (exact in binary floating point, hence modelled as a real). -/
noncomputable def mbFloat (seed k : ℕ) : ℝ :=
  (mulberryOut seed k : ℝ) / 4294967296

/-- Modelled from the spec's pseudocode for `SeededRandomSource`, for
comparison with the code's `mulberryMix`: the spec writes the second mix
step as `t xor (t + (t xor (state >> 7)) * (state or 61))`, i.e. it shifts
and masks the *state*, not the updated `t`. -/
def specMulberryMix (s : ℕ) : ℕ :=
  let st := s % 4294967296
  let t1 := ((st ^^^ (st >>> 15)) * (st ||| 1)) % 4294967296
  let t2 := (t1 ^^^ ((t1 + (t1 ^^^ (st >>> 7)) * (st ||| 61)) % 4294967296)) % 4294967296
  (t2 ^^^ (t2 >>> 14)) % 4294967296

/-- The `k`-th draw of the spec's pseudocode generator. -/
def specMulberryOut (seed k : ℕ) : ℕ :=
  specMulberryMix (seed + (k + 1) * 0x6D2B79F5)

/-- The amended description of the code's generator: the second mix step
reuses the updated `t` throughout (`t ^= t + imul(t ^ (t >>> 7), t | 61)`),
rather than the spec's `state`-based operands. -/
def amendedMulberryMix (s : ℕ) : ℕ :=
  let st := s % 4294967296
  let t1 := ((st ^^^ (st >>> 15)) * (st ||| 1)) % 4294967296
  let t2 := t1 ^^^ ((t1 + (t1 ^^^ (t1 >>> 7)) * (t1 ||| 61)) % 4294967296)
  t2 ^^^ (t2 >>> 14)

lemma xor_lt_mod32 {a b : ℕ} (ha : a < 4294967296) (hb : b < 4294967296) :
    a ^^^ b < 4294967296 := by
  have h32 : (4294967296 : ℕ) = 2 ^ 32 := by norm_num
  rw [h32] at ha hb ⊢
  exact Nat.xor_lt_two_pow ha hb

lemma mulberryMix_lt (s : ℕ) : mulberryMix s < 4294967296 := by
  simp only [mulberryMix]
  have h1 : ∀ x : ℕ, x % 4294967296 < 4294967296 := fun x => Nat.mod_lt _ (by norm_num)
  have h2 : ∀ a k : ℕ, a < 4294967296 → a >>> k < 4294967296 := by
    intro a k ha
    rw [Nat.shiftRight_eq_div_pow]
    exact lt_of_le_of_lt (Nat.div_le_self _ _) ha
  apply xor_lt_mod32
  · exact xor_lt_mod32 (h1 _) (h1 _)
  · exact h2 _ _ (xor_lt_mod32 (h1 _) (h1 _))

lemma mulberryMix_mod (s : ℕ) :
    mulberryMix (s % 4294967296) = mulberryMix s := by
  simp only [mulberryMix, Nat.mod_mod_of_dvd _ dvd_rfl]

/-- C1.  The spec's pseudocode for the generator does not match the code:
already the first draw from seed 42 differs (the code returns numerator
2581720956, the spec's mix returns 2105754025). -/
theorem mulberry32_spec_mismatch :
    mulberryOut 42 0 ≠ specMulberryOut 42 0 := by decide

/-- C1 (amended).  The code's generator: string seeds are folded by summing
character codes; the `k`-th call mixes the state `seed + (k+1)*0x6D2B79F5`
(all bitwise uses reduce it mod `2^32`, so any state and its 32-bit residue
mix identically); the mix is the amended two-step form in which the second
step reuses the updated `t` (not the state); and the returned float, the
32-bit mix divided by `2^32`, lies in `[0, 1)`. -/
theorem mulberry32_amended (seed k : ℕ) (s : String) :
    convertStringToNumber s = (s.data.map Char.toNat).sum
    ∧ mulberryOut seed k = amendedMulberryMix (seed + (k + 1) * 0x6D2B79F5)
    ∧ mulberryMix ((seed + (k + 1) * 0x6D2B79F5) % 4294967296) = mulberryOut seed k
    ∧ mulberryOut seed (k + 1) = mulberryMix ((seed + (k + 1) * 0x6D2B79F5) + 0x6D2B79F5)
    ∧ 0 ≤ mbFloat seed k ∧ mbFloat seed k < 1 := by
  refine ⟨rfl, ?_, ?_, ?_, ?_, ?_⟩
  · rfl
  · exact mulberryMix_mod _
  · unfold mulberryOut
    congr 1
    ring
  · exact div_nonneg (Nat.cast_nonneg _) (by norm_num)
  · unfold mbFloat
    rw [div_lt_one (by norm_num)]
    have h := mulberryMix_lt (seed + (k + 1) * 0x6D2B79F5)
    unfold mulberryOut
    exact_mod_cast h

/-! ## Viewport controller (`src/app/page.js`)

The viewport state is React's `viewBox` (`{x, y, scale}`); all of its
arithmetic is field operations, embedded over `ℚ`.  The fixed logical canvas
is 1920×1080 with center (960, 540). -/

/-- React's `viewBox` state: offset and scale of the plane. -/
structure ViewBox where
  x : ℚ
  y : ℚ
  scale : ℚ

/-- `ZOOM_SPEED` constant from page.js, keyed by device class. -/
def ZOOM_SPEED (mobile : Bool) : ℚ := if mobile then 2 else 0.14

/-- `CULLING_MARGIN` constant from page.js, keyed by device class. -/
def CULLING_MARGIN (mobile : Bool) : ℚ := if mobile then 800 else 500

/-- `INITIAL_ZOOM` constant from page.js, keyed by device class. -/
def INITIAL_ZOOM (mobile : Bool) : ℚ := if mobile then 0.4 else 0.2

/-- The initial `viewBox` state: zero offset, device-dependent initial zoom. -/
def initialViewBox (mobile : Bool) : ViewBox :=
  { x := 0, y := 0, scale := INITIAL_ZOOM mobile }

/-- JavaScript's `Math.sign` (no NaN in this exact model). -/
def mathSign (d : ℚ) : ℚ := if 0 < d then 1 else if d < 0 then -1 else 0

/-- Projection of a plane point to screen coordinates, as performed by the
SVG group transform
`translate(centerX + viewBox.x, centerY + viewBox.y) scale(viewBox.scale)`:
`screen = center + offset + plane * scale`. -/
def project (vb : ViewBox) (p : ℚ × ℚ) : ℚ × ℚ :=
  (960 + vb.x + p.1 * vb.scale, 540 + vb.y + p.2 * vb.scale)

/-- `handleWheel` from page.js: wheel zoom anchored at the cursor.
`scaleFactor = 1 - sign(deltaY) * speed`; the world point under the cursor is
computed before scaling and the offset adjusted so it stays put. -/
def handleWheel (vb : ViewBox) (clientX clientY deltaY : ℚ) (mobile : Bool) : ViewBox :=
  let speed := ZOOM_SPEED mobile
  let scaleFactor := 1 - mathSign deltaY * speed
  let newScale := vb.scale * scaleFactor
  let mouseX := clientX - 960
  let mouseY := clientY - 540
  let worldX := (mouseX - vb.x) / vb.scale
  let worldY := (mouseY - vb.y) / vb.scale
  { x := vb.x - worldX * (scaleFactor - 1) * vb.scale,
    y := vb.y - worldY * (scaleFactor - 1) * vb.scale,
    scale := newScale }

/-- The two-finger branch of `handleTouchMove` from page.js: pinch zoom with
`scaleFactor = 1 + (distance/lastDistance - 1) * ZOOM_SPEED.mobile`, anchored
at the pinch center with the same offset adjustment as the wheel path. -/
def handlePinch (vb : ViewBox) (distance lastDistance centerX centerY : ℚ) : ViewBox :=
  let s := distance / lastDistance
  let zoomChange := (s - 1) * ZOOM_SPEED true
  let scaleFactor := 1 + zoomChange
  let newScale := vb.scale * scaleFactor
  let mouseX := centerX - 960
  let mouseY := centerY - 540
  let worldX := (mouseX - vb.x) / vb.scale
  let worldY := (mouseY - vb.y) / vb.scale
  { x := vb.x - worldX * (scaleFactor - 1) * vb.scale,
    y := vb.y - worldY * (scaleFactor - 1) * vb.scale,
    scale := newScale }

/-- `isCharacterVisible` from page.js: project the plane position and test it
against the margin-extended fixed viewport. -/
def isCharacterVisible (vb : ViewBox) (mobile : Bool) (x y : ℚ) : Bool :=
  let screenX := 960 + vb.x
  let screenY := 540 + vb.y
  let scaledX := x * vb.scale + screenX
  let scaledY := y * vb.scale + screenY
  let margin := CULLING_MARGIN mobile
  decide (-margin ≤ scaledX) && decide (scaledX ≤ 1920 + margin) &&
    decide (-margin ≤ scaledY) && decide (scaledY ≤ 1080 + margin)

/-- A placed character as seen by the search index: its identity key and
plane position (the fields of the worker's output record that
`handleSearch` reads). -/
structure CharacterRecord where
  walletAddress : String
  x : ℚ
  y : ℚ

/-- `characterIndex.get`: the `Map` built by `forEach`/`set` over the
position list, so a later record with the same key overwrites an earlier
one. -/
def characterIndexGet (chars : List CharacterRecord) (key : String) :
    Option CharacterRecord :=
  chars.foldl (fun acc c => if c.walletAddress = key then some c else acc) none

/-- `handleSearch` from page.js.  On a hit the animation runs to
`progress = 1` and `ease(1) = 1`, so the final transform is exactly the
target `(-x - 100, -y - 50, scale 1)`; on a miss `alert` fires and
`setViewBox` is never called.  Result: the final transform and whether the
not-found alert was raised. -/
def handleSearch (chars : List CharacterRecord) (searchInput : String)
    (vb : ViewBox) : ViewBox × Bool :=
  match characterIndexGet chars searchInput with
  | some c => ({ x := -c.x - 100, y := -c.y - 50, scale := 1 }, false)
  | none => (vb, true)

/-- C3.  Zoom anchoring: for a transform with positive scale, the plane point
that projected to the given screen point before the zoom projects to exactly
the same screen point afterwards, both for wheel zoom (anchored at the
cursor) and for pinch zoom (anchored at the pinch center). -/
theorem zoom_anchoring (vb : ViewBox) (p : ℚ × ℚ) (sx sy deltaY dist lastDist : ℚ)
    (mobile : Bool) (hscale : 0 < vb.scale) (hproj : project vb p = (sx, sy)) :
    project (handleWheel vb sx sy deltaY mobile) p = (sx, sy)
    ∧ project (handlePinch vb dist lastDist sx sy) p = (sx, sy) := by
  have hs : vb.scale ≠ 0 := ne_of_gt hscale
  simp only [project, Prod.mk.injEq] at hproj
  obtain ⟨hx, hy⟩ := hproj
  subst hx
  subst hy
  refine ⟨?_, ?_⟩ <;>
    · simp only [handleWheel, handlePinch, project, Prod.mk.injEq]
      constructor <;> (field_simp; ring)

/-- Witness for C3 at a concrete transform, plane point and inputs. -/
theorem zoom_anchoring_witness :
    (0 : ℚ) < 1
    ∧ project { x := 0, y := 0, scale := 1 } (1, 1) = (961, 541)
    ∧ (project (handleWheel { x := 0, y := 0, scale := 1 } 961 541 1 false) (1, 1)
          = (961, 541)
        ∧ project (handlePinch { x := 0, y := 0, scale := 1 } 1 2 961 541) (1, 1)
          = (961, 541)) :=
  ⟨by norm_num, by norm_num [project],
    zoom_anchoring { x := 0, y := 0, scale := 1 } (1, 1) 961 541 1 1 2 false
      (by norm_num) (by norm_num [project])⟩

/-- C4 is violated by the code: from the reachable initial mobile transform
(scale 0.4), a pinch whose distance shrinks from 100 to 10 yields scale
`0.4 * (1 + (0.1 - 1) * 2) = -8/25 < 0`, and a mobile wheel-zoom-out yields
scale `0.4 * (1 - 1*2) = -2/5 < 0`; nothing clamps or rejects these before
the transform is mutated. -/
theorem pinch_negative_scale :
    (handlePinch (initialViewBox true) 10 100 0 0).scale < 0
    ∧ (handleWheel (initialViewBox true) 0 0 1 true).scale < 0 := by
  refine ⟨?_, ?_⟩ <;>
    norm_num [handlePinch, handleWheel, initialViewBox, INITIAL_ZOOM, ZOOM_SPEED,
      mathSign]

/-- C7.  If no placed character's identity equals the search input, the
search leaves the transform unchanged and raises the not-found alert. -/
theorem search_not_found (chars : List CharacterRecord) (searchInput : String)
    (vb : ViewBox) (h : ∀ c ∈ chars, c.walletAddress ≠ searchInput) :
    handleSearch chars searchInput vb = (vb, true) := by
  have key : ∀ (l : List CharacterRecord) (acc : Option CharacterRecord),
      (∀ c ∈ l, c.walletAddress ≠ searchInput) →
      l.foldl (fun acc c => if c.walletAddress = searchInput then some c else acc) acc
        = acc := by
    intro l
    induction l with
    | nil => intro acc _; rfl
    | cons head tail ih =>
      intro acc hall
      simp only [List.foldl_cons]
      rw [if_neg (hall head (by simp))]
      exact ih acc fun c hc => hall c (by simp [hc])
  have hnone : characterIndexGet chars searchInput = none := key chars none h
  simp [handleSearch, hnone]

/-- Witness for C7: searching a one-character set for an absent identity. -/
theorem search_not_found_witness :
    handleSearch [{ walletAddress := "abc", x := 1, y := 2 }] "zzz"
        { x := 5, y := 6, scale := 7 }
      = ({ x := 5, y := 6, scale := 7 }, true) :=
  search_not_found _ _ _ (by decide)

/-- C8.  The culling filter is the pure predicate the claim describes: it
holds iff the projected screen position `center + offset + plane*scale` lies
inside the viewport extended by the device-class margin on every side. -/
theorem culling_iff (vb : ViewBox) (mobile : Bool) (x y : ℚ) :
    isCharacterVisible vb mobile x y = true ↔
      (-(CULLING_MARGIN mobile) ≤ 960 + vb.x + x * vb.scale
        ∧ 960 + vb.x + x * vb.scale ≤ 1920 + CULLING_MARGIN mobile
        ∧ -(CULLING_MARGIN mobile) ≤ 540 + vb.y + y * vb.scale
        ∧ 540 + vb.y + y * vb.scale ≤ 1080 + CULLING_MARGIN mobile) := by
  simp only [isCharacterVisible, Bool.and_eq_true, decide_eq_true_eq]
  constructor
  · rintro ⟨⟨⟨h1, h2⟩, h3⟩, h4⟩
    exact ⟨by linarith, by linarith, by linarith, by linarith⟩
  · rintro ⟨h1, h2, h3, h4⟩
    exact ⟨⟨⟨by linarith, by linarith⟩, by linarith⟩, by linarith⟩

/-! ## Layout worker (`src/workers/characterGenerator.js`)

The worker receives the holder list, maps every `{holderID, size}` record to
a placed character via the golden-angle spiral with mulberry32 jitter, and
posts a single completion message.  Geometry is over `ℝ` (the code uses
`Math.sqrt`, `Math.cos`, `Math.sin`, `Math.PI`). -/

/-- One input record to the worker: `{ holderID, size }`. -/
structure Holder where
  holderID : String
  size : ℝ

/-- The `boundingBox` object of a placed character. -/
structure BoundingBox where
  left : ℝ
  right : ℝ
  top : ℝ
  bottom : ℝ
  width : ℝ
  height : ℝ

/-- The record returned per input item by the worker's `map` callback. -/
structure PlacedEntity where
  x : ℝ
  y : ℝ
  sizeParameter : ℝ
  paramSeed : ℕ
  walletAddress : String
  boundingBox : BoundingBox

/-- The unperturbed spiral radius
`maxRadius * sqrt(index / data.length) * sizeScale` with
`maxRadius = sqrt(n) * 500` and `sizeScale = 1 + size * 2`. -/
noncomputable def baseRadius (n index : ℕ) (size : ℝ) : ℝ :=
  (Real.sqrt n * 500) * Real.sqrt ((index : ℝ) / (n : ℝ)) * (1 + size * 2)

/-- The body of the worker's `map` callback for the item at `index` out of
`n = data.length`: golden-angle spiral position with two jitter draws from
`mulberry32(holderID)`, plus the magnitude-scaled bounding box
(`baseSize = 600`). -/
noncomputable def placeEntity (n index : ℕ) (item : Holder) : PlacedEntity :=
  let seedN := convertStringToNumber item.holderID
  let maxRadius := Real.sqrt n * 500
  let goldenAngle := Real.pi * (3 - Real.sqrt 5)
  let angle := (index : ℝ) * goldenAngle
  let radius := baseRadius n index item.size
  let sizeScale := 1 + item.size * 2
  let anglePerturbation := (mbFloat seedN 0 - 0.5) * 0.1
  let radiusPerturbation :=
    (mbFloat seedN 1 - 0.5) * ((maxRadius * 0.9) / (n : ℝ)) * 2 * sizeScale
  let angle2 := angle + anglePerturbation
  let radius2 := radius + radiusPerturbation
  let x := radius2 * Real.cos angle2
  let y := radius2 * Real.sin angle2
  let scaledWidth := 600 * item.size
  let scaledHeight := 600 * item.size
  { x := x, y := y, sizeParameter := item.size, paramSeed := seedN,
    walletAddress := item.holderID,
    boundingBox :=
      { left := x - scaledWidth / 2, right := x + scaledWidth / 2,
        top := y - scaledHeight / 2, bottom := y + scaledHeight / 2,
        width := scaledWidth, height := scaledHeight } }

/-- `data.map((item, index) => ...)` with the running index made explicit. -/
noncomputable def positionsFrom (n : ℕ) : ℕ → List Holder → List PlacedEntity
  | _, [] => []
  | i, item :: rest => placeEntity n i item :: positionsFrom n (i + 1) rest

/-- The `positions` list computed by the worker's message handler. -/
noncomputable def positionsList (data : List Holder) : List PlacedEntity :=
  positionsFrom data.length 0 data

/-- The single message the worker posts: `{ positions, isComplete: true }`. -/
structure WorkerMessage where
  positions : List PlacedEntity
  isComplete : Bool

/-- `self.onmessage`: maps the whole input list and posts exactly one
completion message (the handler is straight-line code with a single
`postMessage` call at the end, so in this embedding it is a function
returning that one message). -/
noncomputable def onmessage (data : List Holder) : WorkerMessage :=
  { positions := positionsList data, isComplete := true }

/-- A bounding box of width and height `w` centered on `(x, y)` — the shape
the spec requires of every placed entity's box. -/
noncomputable def bboxCentered (x y w : ℝ) : BoundingBox :=
  { left := x - w / 2, right := x + w / 2, top := y - w / 2, bottom := y + w / 2,
    width := w, height := w }

lemma positionsFrom_length (n : ℕ) :
    ∀ (i : ℕ) (l : List Holder), (positionsFrom n i l).length = l.length := by
  intro i l
  induction l generalizing i with
  | nil => rfl
  | cons a t ih =>
    show (placeEntity n i a :: positionsFrom n (i + 1) t).length = (a :: t).length
    simp [ih]

lemma positionsFrom_get (n : ℕ) :
    ∀ (l : List Holder) (i j : ℕ),
      (positionsFrom n i l)[j]? = (l[j]?).map (fun item => placeEntity n (i + j) item) := by
  intro l
  induction l with
  | nil => intro i j; simp [positionsFrom]
  | cons a t ih =>
    intro i j
    cases j with
    | zero =>
      show (placeEntity n i a :: positionsFrom n (i + 1) t)[0]? = _
      simp
    | succ j =>
      show (placeEntity n i a :: positionsFrom n (i + 1) t)[j + 1]? = _
      rw [List.getElem?_cons_succ, ih (i + 1) j, List.getElem?_cons_succ,
        show i + 1 + j = i + (j + 1) from by omega]

/-- C2.  The `i`-th placement is the map-callback applied at index `i`, and
the callback places the entity at `x = R*cos(A)`, `y = R*sin(A)` with
`A = i*π(3-√5) + (r1-0.5)*0.1` and
`R = √n*500*√(i/n)*(1+2m) + (r2-0.5)*2*(1+2m)*(√n*500*0.9/n)`, where `r1`,
`r2` are the first two draws of `mulberry32` seeded with the identity's
folded seed. -/
theorem layout_position_formula (data : List Holder) (n i : ℕ) (item : Holder) :
    (positionsList data)[i]? = (data[i]?).map (placeEntity data.length i)
    ∧ (placeEntity n i item).x =
        (Real.sqrt n * 500 * Real.sqrt ((i : ℝ) / (n : ℝ)) * (1 + 2 * item.size)
          + (mbFloat (convertStringToNumber item.holderID) 1 - 0.5) * 2
              * (1 + 2 * item.size) * (Real.sqrt n * 500 * 0.9 / (n : ℝ)))
        * Real.cos ((i : ℝ) * (Real.pi * (3 - Real.sqrt 5))
          + (mbFloat (convertStringToNumber item.holderID) 0 - 0.5) * 0.1)
    ∧ (placeEntity n i item).y =
        (Real.sqrt n * 500 * Real.sqrt ((i : ℝ) / (n : ℝ)) * (1 + 2 * item.size)
          + (mbFloat (convertStringToNumber item.holderID) 1 - 0.5) * 2
              * (1 + 2 * item.size) * (Real.sqrt n * 500 * 0.9 / (n : ℝ)))
        * Real.sin ((i : ℝ) * (Real.pi * (3 - Real.sqrt 5))
          + (mbFloat (convertStringToNumber item.holderID) 0 - 0.5) * 0.1) := by
  refine ⟨?_, ?_, ?_⟩
  · have h := positionsFrom_get data.length data 0 i
    simpa [positionsList] using h
  · simp only [placeEntity, baseRadius]
    ring
  · simp only [placeEntity, baseRadius]
    ring

/-- C5.  Layout is deterministic: re-running the pure handler reproduces the
same message, and an entity's position and bounding box depend only on its
index, the total count, its magnitude and its folded seed (not on the raw
identity string beyond the seed). -/
theorem layout_deterministic (data : List Holder) (n i : ℕ) (a b : Holder)
    (hseed : convertStringToNumber a.holderID = convertStringToNumber b.holderID)
    (hsize : a.size = b.size) :
    onmessage data = onmessage data
    ∧ (placeEntity n i a).x = (placeEntity n i b).x
    ∧ (placeEntity n i a).y = (placeEntity n i b).y
    ∧ (placeEntity n i a).boundingBox = (placeEntity n i b).boundingBox := by
  refine ⟨rfl, ?_, ?_, ?_⟩ <;> simp [placeEntity, baseRadius, hseed, hsize]

/-- Witness for C5: two holders with different identity strings but equal
folded seeds (`"AB"` and `"BA"` both sum to 131) and equal magnitudes get
identical positions and boxes. -/
theorem layout_deterministic_witness :
    onmessage [] = onmessage []
    ∧ (placeEntity 3 1 { holderID := "AB", size := 1/2 }).x
        = (placeEntity 3 1 { holderID := "BA", size := 1/2 }).x
    ∧ (placeEntity 3 1 { holderID := "AB", size := 1/2 }).y
        = (placeEntity 3 1 { holderID := "BA", size := 1/2 }).y
    ∧ (placeEntity 3 1 { holderID := "AB", size := 1/2 }).boundingBox
        = (placeEntity 3 1 { holderID := "BA", size := 1/2 }).boundingBox :=
  layout_deterministic [] 3 1 { holderID := "AB", size := 1/2 }
    { holderID := "BA", size := 1/2 } (by decide) rfl

/-- C6.  The empty input yields the empty placement set (the map body, and
with it the division by `n`, is never evaluated) together with the
completion flag. -/
theorem empty_input_layout :
    onmessage [] = { positions := [], isComplete := true } := rfl

/-- C9.  With two holders, the unperturbed radius at index 0 is 0 whatever
the magnitude (`sqrt(0/2) = 0`), and at index 1 with magnitude 1 it is
`maxRadius * sqrt(0.5) * 3` with `maxRadius = sqrt(2)*500`. -/
theorem two_holder_radius (m : ℝ) :
    baseRadius 2 0 m = 0
    ∧ baseRadius 2 1 1 = (Real.sqrt 2 * 500) * Real.sqrt (1/2) * 3 := by
  constructor
  · simp [baseRadius]
  · simp only [baseRadius]
    norm_num

/-- C10.  The worker's single response: completion flag true, one placement
per input record in input order, the `i`-th placement carrying the `i`-th
input's identity, magnitude and folded seed, and a bounding box of width and
height `600 * magnitude` centered on the entity's position. -/
theorem worker_message_shape (data : List Holder) (i : ℕ) :
    (onmessage data).isComplete = true
    ∧ (onmessage data).positions.length = data.length
    ∧ ((onmessage data).positions[i]?).map PlacedEntity.walletAddress
        = (data[i]?).map Holder.holderID
    ∧ ((onmessage data).positions[i]?).map PlacedEntity.sizeParameter
        = (data[i]?).map Holder.size
    ∧ ((onmessage data).positions[i]?).map PlacedEntity.paramSeed
        = (data[i]?).map (fun h => convertStringToNumber h.holderID)
    ∧ ((onmessage data).positions[i]?).map PlacedEntity.boundingBox
        = ((onmessage data).positions[i]?).map
            (fun p => bboxCentered p.x p.y (600 * p.sizeParameter)) := by
  have hget : (positionsList data)[i]? = (data[i]?).map (placeEntity data.length i) := by
    have h := positionsFrom_get data.length data 0 i
    simpa [positionsList] using h
  refine ⟨rfl, positionsFrom_length data.length 0 data, ?_, ?_, ?_, ?_⟩ <;>
    · simp only [onmessage]
      rw [hget]
      cases h : data[i]? <;> simp [placeEntity, baseRadius, bboxCentered]
